import Mathlib

/-!
Verification development for the TrustByDesign core library.

The definitions below are a shallow embedding of the four core modules:
`src/lib/risk_registry.py`, `src/lib/policy_checker.py`,
`src/lib/uncertainty_tags.py` and `src/lib/report_builder.py`.

Python dictionaries are modelled as insertion-ordered association lists
(Python `dict` preserves insertion order, and writing to an existing key
keeps its position).  Python exceptions are modelled with `Except String`
(the message is the exception's message); operations whose Python
counterpart can leave mutated state behind when an exception escapes are
modelled as returning the post-call state together with the outcome.
File I/O (YAML/JSON parsing) is outside the model: the load operations
are embedded from the point where the parsed document is in hand.
-/

set_option linter.unusedVariables false

/-! ## Risk entity model (`src/lib/risk_registry.py`, lines 16-114) -/

inductive RiskCategory
  | HALLUCINATION | PRIVACY | BIAS | AUTONOMY_OVERREACH | MISUSE
  | DATA_QUALITY | SECURITY | PERFORMANCE | COMPLIANCE | OTHER
  deriving DecidableEq, Repr

/-- The `.value` of each `RiskCategory` member. -/
def RiskCategory.value : RiskCategory → String
  | .HALLUCINATION => "hallucination"
  | .PRIVACY => "privacy"
  | .BIAS => "bias"
  | .AUTONOMY_OVERREACH => "autonomy_overreach"
  | .MISUSE => "misuse"
  | .DATA_QUALITY => "data_quality"
  | .SECURITY => "security"
  | .PERFORMANCE => "performance"
  | .COMPLIANCE => "compliance"
  | .OTHER => "other"

/-- Lookup by value, `RiskCategory(s)`; `none` models the `ValueError`. -/
def RiskCategory.ofString : String → Option RiskCategory
  | "hallucination" => some .HALLUCINATION
  | "privacy" => some .PRIVACY
  | "bias" => some .BIAS
  | "autonomy_overreach" => some .AUTONOMY_OVERREACH
  | "misuse" => some .MISUSE
  | "data_quality" => some .DATA_QUALITY
  | "security" => some .SECURITY
  | "performance" => some .PERFORMANCE
  | "compliance" => some .COMPLIANCE
  | "other" => some .OTHER
  | _ => none

inductive Severity
  | CRITICAL | HIGH | MEDIUM | LOW
  deriving DecidableEq, Repr

def Severity.value : Severity → String
  | .CRITICAL => "critical"
  | .HIGH => "high"
  | .MEDIUM => "medium"
  | .LOW => "low"

def Severity.ofString : String → Option Severity
  | "critical" => some .CRITICAL
  | "high" => some .HIGH
  | "medium" => some .MEDIUM
  | "low" => some .LOW
  | _ => none

inductive Likelihood
  | VERY_HIGH | HIGH | MEDIUM | LOW | VERY_LOW
  deriving DecidableEq, Repr

def Likelihood.value : Likelihood → String
  | .VERY_HIGH => "very_high"
  | .HIGH => "high"
  | .MEDIUM => "medium"
  | .LOW => "low"
  | .VERY_LOW => "very_low"

def Likelihood.ofString : String → Option Likelihood
  | "very_high" => some .VERY_HIGH
  | "high" => some .HIGH
  | "medium" => some .MEDIUM
  | "low" => some .LOW
  | "very_low" => some .VERY_LOW
  | _ => none

inductive RiskStatus
  | IDENTIFIED | ANALYZING | MITIGATING | MONITORING | CLOSED | ACCEPTED
  deriving DecidableEq, Repr

def RiskStatus.value : RiskStatus → String
  | .IDENTIFIED => "identified"
  | .ANALYZING => "analyzing"
  | .MITIGATING => "mitigating"
  | .MONITORING => "monitoring"
  | .CLOSED => "closed"
  | .ACCEPTED => "accepted"

def RiskStatus.ofString : String → Option RiskStatus
  | "identified" => some .IDENTIFIED
  | "analyzing" => some .ANALYZING
  | "mitigating" => some .MITIGATING
  | "monitoring" => some .MONITORING
  | "closed" => some .CLOSED
  | "accepted" => some .ACCEPTED
  | _ => none

/-- The `Risk` dataclass.  The open `metadata` bag is modelled as a
string-keyed association list with string values. -/
structure Risk where
  id : String
  category : RiskCategory
  title : String
  description : String
  severity : Severity
  likelihood : Likelihood
  mitigations : List String
  owner : String
  status : RiskStatus
  metadata : List (String × String)
  deriving DecidableEq, Repr

/-- The dictionary shape produced by `Risk.to_dict` and consumed by
`Risk.from_dict`: enum fields are raw strings, and the fields that
`from_dict` reads with `.get(..., default)` are `Option`s. -/
structure RiskData where
  id : String
  category : String
  title : String
  description : String
  severity : String
  likelihood : String
  mitigations : Option (List String)
  owner : Option String
  status : Option String
  metadata : Option (List (String × String))
  deriving DecidableEq, Repr

def Risk.to_dict (r : Risk) : RiskData :=
  { id := r.id
    category := r.category.value
    title := r.title
    description := r.description
    severity := r.severity.value
    likelihood := r.likelihood.value
    mitigations := some r.mitigations
    owner := some r.owner
    status := some r.status.value
    metadata := some r.metadata }

/-- Message of the `ValueError` Python raises for `Enum(value)` with a
value outside the enumeration. -/
def invalidEnumMsg (enumName rawValue : String) : String :=
  "'" ++ rawValue ++ "' is not a valid " ++ enumName

/-- `Risk.from_dict`.  The four enum coercions are evaluated in the
argument order of the constructor call (`category`, `severity`,
`likelihood`, `status`); the first invalid value raises. -/
def Risk.from_dict (d : RiskData) : Except String Risk :=
  match RiskCategory.ofString d.category with
  | none => .error (invalidEnumMsg "RiskCategory" d.category)
  | some category =>
    match Severity.ofString d.severity with
    | none => .error (invalidEnumMsg "Severity" d.severity)
    | some severity =>
      match Likelihood.ofString d.likelihood with
      | none => .error (invalidEnumMsg "Likelihood" d.likelihood)
      | some likelihood =>
        match RiskStatus.ofString (d.status.getD "identified") with
        | none => .error (invalidEnumMsg "RiskStatus" (d.status.getD "identified"))
        | some status =>
          .ok { id := d.id
                category := category
                title := d.title
                description := d.description
                severity := severity
                likelihood := likelihood
                mitigations := d.mitigations.getD []
                owner := d.owner.getD ""
                status := status
                metadata := d.metadata.getD [] }

/-! ## Risk registry (`src/lib/risk_registry.py`, lines 117-289)

`self.risks : Dict[str, Risk]` is an insertion-ordered association
list. -/

abbrev RiskRegistry := List (String × Risk)

/-- `self.risks.get(id)` (also decides `id in self.risks`). -/
def RiskRegistry.get_risk (reg : RiskRegistry) (id : String) : Option Risk :=
  match reg with
  | [] => none
  | (k, r) :: rest => if k = id then some r else RiskRegistry.get_risk rest id

/-- `self.risks[id] = risk`: overwrite in place if the key exists
(keeping its position, as a Python dict does), else append. -/
def dictWrite (reg : RiskRegistry) (id : String) (r : Risk) : RiskRegistry :=
  match reg with
  | [] => [(id, r)]
  | (k, r₀) :: rest =>
    if k = id then (id, r) :: rest else (k, r₀) :: dictWrite rest id r

/-- `RiskRegistry.add_risk`.  The first component is the registry after
the call (unchanged when the duplicate-id `ValueError` is raised, since
the raise precedes any mutation). -/
def RiskRegistry.add_risk (reg : RiskRegistry) (id : String)
    (category : RiskCategory) (title description : String)
    (severity : Severity) (likelihood : Likelihood)
    (mitigations : Option (List String) := none) (owner : String := "")
    (status : RiskStatus := .IDENTIFIED)
    (metadata : Option (List (String × String)) := none) :
    RiskRegistry × Except String Risk :=
  if (RiskRegistry.get_risk reg id).isSome then
    (reg, .error ("Risk with ID '" ++ id ++ "' already exists"))
  else
    let risk : Risk :=
      { id := id, category := category, title := title
        description := description, severity := severity
        likelihood := likelihood, mitigations := mitigations.getD []
        owner := owner, status := status, metadata := metadata.getD [] }
    (dictWrite reg id risk, .ok risk)

/-- One keyword argument of `update_risk`.  For each enum-valued field
there is a variant carrying the enum directly and one carrying a raw
string (which the source coerces with `Enum(value)`).  `unknown` models
a keyword whose name is not an attribute of `Risk` (Python's `hasattr`
test fails for it, so the loop body is skipped; `id` itself can never
appear among the kwargs because it would collide with the positional
`id` parameter). -/
inductive Kwarg
  | category (v : RiskCategory)
  | categoryStr (s : String)
  | title (s : String)
  | description (s : String)
  | severity (v : Severity)
  | severityStr (s : String)
  | likelihood (v : Likelihood)
  | likelihoodStr (s : String)
  | mitigations (l : List String)
  | owner (s : String)
  | status (v : RiskStatus)
  | statusStr (s : String)
  | metadata (m : List (String × String))
  | unknown (name : String)
  deriving DecidableEq, Repr

/-- The keyword name of a `Kwarg`. -/
def Kwarg.key : Kwarg → String
  | .category _ => "category"
  | .categoryStr _ => "category"
  | .title _ => "title"
  | .description _ => "description"
  | .severity _ => "severity"
  | .severityStr _ => "severity"
  | .likelihood _ => "likelihood"
  | .likelihoodStr _ => "likelihood"
  | .mitigations _ => "mitigations"
  | .owner _ => "owner"
  | .status _ => "status"
  | .statusStr _ => "status"
  | .metadata _ => "metadata"
  | .unknown n => n

/-- The dataclass field names of `Risk` (the names for which
`hasattr(risk, key)` recognizes a data attribute). -/
def riskAttrNames : List String :=
  ["id", "category", "title", "description", "severity", "likelihood",
   "mitigations", "owner", "status", "metadata"]

/-- One iteration of the `for key, value in kwargs.items()` loop body of
`update_risk`: coerce string enum values (raising on an invalid one) and
set the attribute.  An `unknown` keyword fails the `hasattr` test, so
nothing happens. -/
def applyKwarg (r : Risk) : Kwarg → Except String Risk
  | .category v => .ok { r with category := v }
  | .categoryStr s =>
    match RiskCategory.ofString s with
    | some v => .ok { r with category := v }
    | none => .error (invalidEnumMsg "RiskCategory" s)
  | .title s => .ok { r with title := s }
  | .description s => .ok { r with description := s }
  | .severity v => .ok { r with severity := v }
  | .severityStr s =>
    match Severity.ofString s with
    | some v => .ok { r with severity := v }
    | none => .error (invalidEnumMsg "Severity" s)
  | .likelihood v => .ok { r with likelihood := v }
  | .likelihoodStr s =>
    match Likelihood.ofString s with
    | some v => .ok { r with likelihood := v }
    | none => .error (invalidEnumMsg "Likelihood" s)
  | .mitigations l => .ok { r with mitigations := l }
  | .owner s => .ok { r with owner := s }
  | .status v => .ok { r with status := v }
  | .statusStr s =>
    match RiskStatus.ofString s with
    | some v => .ok { r with status := v }
    | none => .error (invalidEnumMsg "RiskStatus" s)
  | .metadata m => .ok { r with metadata := m }
  | .unknown _ => .ok r

/-- The whole kwargs loop.  The risk is mutated in place in Python, so
when an iteration raises the updates already applied stay: the first
component is the risk as it stands when the loop stops, the second the
escaping error, if any. -/
def applyKwargs (r : Risk) : List Kwarg → Risk × Option String
  | [] => (r, none)
  | k :: ks =>
    match applyKwarg r k with
    | .ok r' => applyKwargs r' ks
    | .error e => (r, some e)

/-- `RiskRegistry.update_risk`.  Mutation in place means the registry
reflects the partially updated risk even when an iteration raised. -/
def RiskRegistry.update_risk (reg : RiskRegistry) (id : String)
    (kwargs : List Kwarg) : RiskRegistry × Except String Risk :=
  match RiskRegistry.get_risk reg id with
  | none => (reg, .error ("Risk with ID '" ++ id ++ "' not found"))
  | some r =>
    match applyKwargs r kwargs with
    | (r', none) => (dictWrite reg id r', .ok r')
    | (r', some e) => (dictWrite reg id r', .error e)

/-- `RiskRegistry.export_risks_to_dict`. -/
def RiskRegistry.export_risks_to_dict (reg : RiskRegistry) : List RiskData :=
  reg.map (fun p => p.2.to_dict)

/-- Shared body of `load_from_yaml` / `load_from_json` once the parsed
document's `risks` list is in hand: `Risk.from_dict` each record and
write it into the id-keyed map (`self.risks[risk.id] = risk`).  Records
already written stay written when a later record raises. -/
def RiskRegistry.load_risks (reg : RiskRegistry) :
    List RiskData → RiskRegistry × Option String
  | [] => (reg, none)
  | d :: ds =>
    match Risk.from_dict d with
    | .ok r => RiskRegistry.load_risks (dictWrite reg r.id r) ds
    | .error e => (reg, some e)

/-- Registry well-formedness, maintained by construction through
`add_risk` / `update_risk` / `load_risks`: keys are unique (a Python
dict cannot hold duplicate keys) and each risk is stored under its own
id. -/
def RiskRegistry.WF (reg : RiskRegistry) : Prop :=
  (reg.map Prod.fst).Nodup ∧ ∀ p ∈ reg, p.1 = p.2.id

/-! ## Policy checker (`src/lib/policy_checker.py`)

A policy document is a nested key/value mapping; the checker only ever
tests key presence and truthiness, so a section is modelled by the list
of keys it contains (a section value that is an empty mapping is falsy,
like Python's `{}`). -/

abbrev PolicySection := List String

abbrev Policy := List (String × PolicySection)

/-- `policy.get(section)`. -/
def Policy.getSection (p : Policy) (k : String) : Option PolicySection :=
  match p with
  | [] => none
  | (k₀, v) :: rest => if k₀ = k then some v else Policy.getSection rest k

structure PolicyIssue where
  severity : String
  «section» : String
  message : String
  deriving DecidableEq, Repr

def REQUIRED_SECTIONS : List String :=
  ["scope", "responsibilities", "data_handling", "incident_response",
   "monitoring", "escalation"]

def RECOMMENDED_SECTIONS : List String :=
  ["risk_assessment", "uncertainty_handling", "audit_trail",
   "user_consent", "model_governance", "deployment_process"]

/-- `section not in policy or not policy[section]`. -/
def sectionMissingOrEmpty (p : Policy) (s : String) : Bool :=
  match Policy.getSection p s with
  | none => true
  | some keys => keys.isEmpty

/-- `PolicyChecker._check_required_sections`. -/
def requiredSectionIssues (p : Policy) : List PolicyIssue :=
  REQUIRED_SECTIONS.filterMap fun s =>
    if sectionMissingOrEmpty p s then
      some { severity := "error", «section» := s
             message := "Required section '" ++ s ++ "' is missing or empty" }
    else none

/-- `PolicyChecker._check_recommended_sections`. -/
def recommendedSectionIssues (p : Policy) : List PolicyIssue :=
  RECOMMENDED_SECTIONS.filterMap fun s =>
    if sectionMissingOrEmpty p s then
      some { severity := "warning", «section» := s
             message := "Recommended section '" ++ s ++ "' is missing" }
    else none

/-- `PolicyChecker._check_scope`: no checks when the section is absent
or falsy. -/
def checkScope (scope : Option PolicySection) : List PolicyIssue :=
  match scope with
  | none => []
  | some keys =>
    if keys.isEmpty then []
    else
      (if "system_description" ∈ keys then []
       else [{ severity := "warning", «section» := "scope"
               message := "Missing 'system_description' in scope" }])
      ++ (if "boundaries" ∈ keys then []
          else [{ severity := "warning", «section» := "scope"
                  message := "Missing 'boundaries' definition in scope" }])

/-- `PolicyChecker._check_responsibilities`. -/
def checkResponsibilities (responsibilities : Option PolicySection) :
    List PolicyIssue :=
  match responsibilities with
  | none => []
  | some keys =>
    if keys.isEmpty then []
    else
      ["system_owner", "incident_responder", "data_steward"].filterMap
        fun role =>
          if role ∈ keys then none
          else
            some { severity := "info", «section» := "responsibilities"
                   message := "Consider defining '" ++ role ++ "' role" }

/-- `PolicyChecker._check_data_handling`. -/
def checkDataHandling (data_handling : Option PolicySection) :
    List PolicyIssue :=
  match data_handling with
  | none => []
  | some keys =>
    if keys.isEmpty then []
    else
      (if "retention_policy" ∈ keys then []
       else [{ severity := "warning", «section» := "data_handling"
               message := "Missing 'retention_policy'" }])
      ++ (if "privacy_measures" ∈ keys then []
          else [{ severity := "warning", «section» := "data_handling"
                  message := "Missing 'privacy_measures'" }])
      ++ (if "data_classification" ∈ keys then []
          else [{ severity := "info", «section» := "data_handling"
                  message := "Consider adding 'data_classification'" }])

/-- `PolicyChecker._check_incident_response`. -/
def checkIncidentResponse (incident_response : Option PolicySection) :
    List PolicyIssue :=
  match incident_response with
  | none => []
  | some keys =>
    if keys.isEmpty then []
    else
      (if "severity_levels" ∈ keys then []
       else [{ severity := "warning", «section» := "incident_response"
               message := "Missing 'severity_levels' definition" }])
      ++ (if "response_procedures" ∈ keys then []
          else [{ severity := "error", «section» := "incident_response"
                  message := "Missing 'response_procedures'" }])
      ++ (if "escalation_path" ∈ keys then []
          else [{ severity := "warning", «section» := "incident_response"
                  message := "Missing 'escalation_path'" }])

/-- `PolicyChecker._check_monitoring`. -/
def checkMonitoring (monitoring : Option PolicySection) : List PolicyIssue :=
  match monitoring with
  | none => []
  | some keys =>
    if keys.isEmpty then []
    else
      (if "metrics" ∈ keys then []
       else [{ severity := "warning", «section» := "monitoring"
               message := "Missing 'metrics' definition" }])
      ++ (if "alerting" ∈ keys then []
          else [{ severity := "info", «section» := "monitoring"
                  message := "Consider defining 'alerting' mechanisms" }])

/-- The full sequence of checks `check_policy` runs after resetting
`self.issues` to the empty list. -/
def runPolicyChecks (p : Policy) : List PolicyIssue :=
  requiredSectionIssues p
  ++ recommendedSectionIssues p
  ++ checkScope (Policy.getSection p "scope")
  ++ checkResponsibilities (Policy.getSection p "responsibilities")
  ++ checkDataHandling (Policy.getSection p "data_handling")
  ++ checkIncidentResponse (Policy.getSection p "incident_response")
  ++ checkMonitoring (Policy.getSection p "monitoring")

/-- The checker's only state is `self.issues`, holding the result of
the most recent run. -/
structure PolicyChecker where
  issues : List PolicyIssue
  deriving DecidableEq, Repr

/-- `PolicyChecker()`. -/
def PolicyChecker.new : PolicyChecker := { issues := [] }

/-- `PolicyChecker.check_policy`: starts by discarding the previous
issue list (`self.issues = []`), runs every check, and returns the new
checker state together with the returned issue list. -/
def PolicyChecker.check_policy (c : PolicyChecker) (p : Policy) :
    PolicyChecker × List PolicyIssue :=
  let issues := runPolicyChecks p
  ({ issues := issues }, issues)

/-- `PolicyChecker.get_summary`. -/
structure PolicySummary where
  total_issues : Nat
  errors : Nat
  warnings : Nat
  info : Nat
  passed : Bool
  deriving DecidableEq, Repr

def PolicyChecker.get_summary (c : PolicyChecker) : PolicySummary :=
  let errors := c.issues.filter fun i => i.severity = "error"
  let warnings := c.issues.filter fun i => i.severity = "warning"
  let infos := c.issues.filter fun i => i.severity = "info"
  { total_issues := c.issues.length
    errors := errors.length
    warnings := warnings.length
    info := infos.length
    passed := errors.length == 0 }

/-! ## Uncertainty tags (`src/lib/uncertainty_tags.py`)

Text is manipulated through its character list. -/

def TAG_FACT : String := "[FACT]"
def TAG_ESTIMATE : String := "[ESTIMATE]"
def TAG_UNKNOWN : String := "[UNKNOWN]"
def TAG_ASSUMPTION : String := "[ASSUMPTION]"
def TAG_SPECULATION : String := "[SPECULATION]"

def ALL_TAGS : List String :=
  [TAG_FACT, TAG_ESTIMATE, TAG_UNKNOWN, TAG_ASSUMPTION, TAG_SPECULATION]

/-- `text.replace(pat, '')` for a non-empty pattern: scan left to
right; at a match, drop the matched characters (the `Nat` argument
counts characters of the current match still to drop) and continue
after them. -/
def removeAllAux (pat : List Char) : List Char → Nat → List Char
  | [], _ => []
  | _ :: cs, n + 1 => removeAllAux pat cs n
  | c :: cs, 0 =>
    if pat.isPrefixOf (c :: cs) then removeAllAux pat cs (pat.length - 1)
    else c :: removeAllAux pat cs 0

/-- `for tag in ALL_TAGS: result = result.replace(tag, '')`. -/
def removeAllTags (s : List Char) : List Char :=
  ALL_TAGS.foldl (fun acc tag => removeAllAux tag.data acc 0) s

/-- The character class of Python's regex `\s` (ASCII range). -/
def isPySpace (c : Char) : Bool :=
  c == ' ' || c == '\t' || c == '\n' || c == '\r' || c == '\x0b' || c == '\x0c'

/-- `re.sub(r'\s+', ' ', ...)`: each maximal whitespace run becomes one
space.  The flag records whether the previous character was part of a
run already rendered. -/
def collapseWsAux : Bool → List Char → List Char
  | _, [] => []
  | prevWs, c :: cs =>
    if isPySpace c then
      if prevWs then collapseWsAux true cs
      else ' ' :: collapseWsAux true cs
    else c :: collapseWsAux false cs

/-- `str.strip()`. -/
def pyStrip (s : List Char) : List Char :=
  ((s.dropWhile isPySpace).reverse.dropWhile isPySpace).reverse

/-- `tag_fact`. -/
def tag_fact (text : String) : String := TAG_FACT ++ " " ++ text

/-- `strip_tags`: remove every tag, collapse whitespace runs, strip. -/
def strip_tags (text : String) : String :=
  String.mk (pyStrip (collapseWsAux false (removeAllTags text.data)))

/-! ## Risk registry summary (`get_summary`), needed by the report
builder. -/

/-- `d[k] = d.get(k, 0) + 1` on an insertion-ordered counter dict. -/
def bumpCount (m : List (String × Nat)) (k : String) : List (String × Nat) :=
  match m with
  | [] => [(k, 1)]
  | (k₀, n) :: rest =>
    if k₀ = k then (k₀, n + 1) :: rest else (k₀, n) :: bumpCount rest k

/-- `d.get(k, 0)`. -/
def getCount (m : List (String × Nat)) (k : String) : Nat :=
  match m with
  | [] => 0
  | (k₀, n) :: rest => if k₀ = k then n else getCount rest k

structure RiskSummary where
  total : Nat
  by_severity : List (String × Nat)
  by_status : List (String × Nat)
  by_category : List (String × Nat)
  deriving DecidableEq, Repr

/-- `RiskRegistry.get_summary`. -/
def RiskRegistry.get_summary (reg : RiskRegistry) : RiskSummary :=
  { total := reg.length
    by_severity := reg.foldl (fun m p => bumpCount m p.2.severity.value) []
    by_status := reg.foldl (fun m p => bumpCount m p.2.status.value) []
    by_category := reg.foldl (fun m p => bumpCount m p.2.category.value) [] }

/-! ## Report builder (`src/lib/report_builder.py`)

The generation timestamp is an input of the render functions. -/

structure TrustReportBuilder where
  risk_registry : Option RiskRegistry
  policy_checker : Option PolicyChecker
  manual_notes : List String
  system_name : String
  system_version : String
  deriving Repr

/-- `TrustReportBuilder()`. -/
def TrustReportBuilder.new : TrustReportBuilder :=
  { risk_registry := none, policy_checker := none, manual_notes := []
    system_name := "AI System", system_version := "1.0.0" }

/-- Python code-point comparison of strings (used by `sorted`). -/
def pyStrLt : List Char → List Char → Bool
  | [], [] => false
  | [], _ :: _ => true
  | _ :: _, [] => false
  | a :: as, b :: bs =>
    if a.toNat < b.toNat then true
    else if b.toNat < a.toNat then false
    else pyStrLt as bs

/-- The sort key of `_build_risk_section`:
`lambda r: (r.severity.value, r.id)`, as a total `≤` for `mergeSort`. -/
def riskKeyLe (a b : Risk) : Bool :=
  if a.severity.value = b.severity.value then !pyStrLt b.id.data a.id.data
  else pyStrLt a.severity.value.data b.severity.value.data

/-- `str.title()` for the lowercase ASCII words it is applied to. -/
def pyTitle (s : String) : String :=
  String.intercalate " " ((s.splitOn " ").map String.capitalize)

/-- `str.replace('_', ' ')`. -/
def underscoresToSpaces (s : String) : String :=
  String.mk (s.data.map fun c => if c = '_' then ' ' else c)

/-- `TrustReportBuilder._build_executive_summary`. -/
def buildExecutiveSummary (b : TrustReportBuilder) : List String :=
  (match b.risk_registry with
   | none => []
   | some reg =>
     let s := reg.get_summary
     ["**Total Risks Identified**: " ++ toString s.total,
      "- Critical: " ++ toString (getCount s.by_severity "critical"),
      "- High: " ++ toString (getCount s.by_severity "high"),
      ""])
  ++ (match b.policy_checker with
      | none => []
      | some c =>
        if c.issues.isEmpty then []
        else
          let ps := c.get_summary
          ["**Policy Compliance**: " ++ (if ps.passed then "✅ Passed" else "❌ Failed"),
           "- Errors: " ++ toString ps.errors,
           "- Warnings: " ++ toString ps.warnings,
           ""])

/-- The high-priority (critical-or-high) risk table at the end of
`_build_risk_section`, present only when such risks exist; rows sorted
by `(severity.value, id)`. -/
def highPriorityTable (reg : RiskRegistry) : List String :=
  let high_priority := (reg.map Prod.snd).filter fun r =>
    r.severity.value = "critical" ∨ r.severity.value = "high"
  if high_priority.isEmpty then []
  else
    ["### High Priority Risks", "",
     "| ID | Title | Severity | Status | Owner |",
     "|---|---|---|---|---|"]
    ++ (high_priority.mergeSort riskKeyLe).map (fun r =>
         "| " ++ (r.id ++ " | " ++ r.title ++ " | " ++ r.severity.value
           ++ " | " ++ r.status.value ++ " | "
           ++ (if r.owner = "" then "Unassigned" else r.owner) ++ " |"))
    ++ [""]

/-- `TrustReportBuilder._build_risk_section` (the registry is set
whenever this runs). -/
def buildRiskSection (reg : RiskRegistry) : List String :=
  let s := reg.get_summary
  ["### Risk Summary", "", "Total Risks: " ++ toString s.total, "",
   "**By Severity:**"]
  ++ s.by_severity.map (fun p => "- " ++ (pyTitle p.1 ++ ": " ++ toString p.2))
  ++ ["", "**By Category:**"]
  ++ s.by_category.map
       (fun p => "- " ++ (pyTitle (underscoresToSpaces p.1) ++ ": " ++ toString p.2))
  ++ [""]
  ++ highPriorityTable reg

/-- `TrustReportBuilder._build_policy_section` (reached from
`build_markdown` only with a checker set, so it takes the checker; its
defensive no-issue branch is kept). -/
def buildPolicySection (c : PolicyChecker) : List String :=
  if c.issues.isEmpty then ["✅ No policy compliance issues found."]
  else
    let s := c.get_summary
    let errors := c.issues.filter fun i => i.severity = "error"
    let warnings := c.issues.filter fun i => i.severity = "warning"
    ["**Status**: " ++ (if s.passed then "⚠️  Passed with warnings" else "❌ Failed"),
     ""]
    ++ (if errors.isEmpty then []
        else
          ["### Errors", ""]
          ++ errors.map (fun i => "- **" ++ (i.«section» ++ "**: " ++ i.message))
          ++ [""])
    ++ (if warnings.isEmpty then []
        else
          ["### Warnings", ""]
          ++ warnings.map (fun i => "- **" ++ (i.«section» ++ "**: " ++ i.message))
          ++ [""])

/-- `TrustReportBuilder._build_recommendations`. -/
def buildRecommendations (b : TrustReportBuilder) : List String :=
  let recommendations :=
    (match b.risk_registry with
     | none => []
     | some reg =>
       let s := reg.get_summary
       let critical_count := getCount s.by_severity "critical"
       (if critical_count > 0 then
          ["🔴 **URGENT**: Address " ++ toString critical_count
             ++ " critical risk(s) before deployment"]
        else [])
       ++ (let identified_risks := (reg.map Prod.snd).filter fun r =>
             r.status.value = "identified"
           if identified_risks.isEmpty then []
           else
             ["⚠️  Move " ++ toString identified_risks.length
                ++ " identified risk(s) to active mitigation"]))
    ++ (match b.policy_checker with
        | none => []
        | some c =>
          if c.issues.isEmpty then []
          else
            let s := c.get_summary
            (if s.errors > 0 then
               ["❌ Fix " ++ toString s.errors ++ " policy error(s) before proceeding"]
             else [])
            ++ (if s.warnings > 5 then
                  ["⚠️  High number of policy warnings - consider comprehensive policy review"]
                else []))
  let recommendations :=
    if recommendations.isEmpty then
      ["✅ No urgent recommendations at this time",
       "💡 Continue monitoring and regular risk reviews"]
    else recommendations
  recommendations.map fun rec => "- " ++ rec

/-- `TrustReportBuilder.build_markdown`, as the list of lines joined by
`"\n"` at the end; `now` is the formatted `datetime.now()`. -/
def build_markdown_lines (b : TrustReportBuilder) (now : String) : List String :=
  ["# Trust Report: " ++ b.system_name,
   "**Version**: " ++ b.system_version,
   "**Generated**: " ++ now,
   "", "---", "",
   "## Executive Summary", ""]
  ++ buildExecutiveSummary b ++ [""]
  ++ (match b.risk_registry with
      | none => []
      | some reg => ["## Risk Assessment", ""] ++ buildRiskSection reg ++ [""])
  ++ (match b.policy_checker with
      | none => []
      | some c =>
        if c.issues.isEmpty then []
        else ["## Policy Compliance", ""] ++ buildPolicySection c ++ [""])
  ++ (if b.manual_notes.isEmpty then []
      else
        ["## Additional Notes", ""]
        ++ b.manual_notes.map (fun note => "- " ++ note) ++ [""])
  ++ ["## Recommendations", ""] ++ buildRecommendations b ++ [""]
  ++ ["---", "",
      "*This report was generated automatically by TrustByDesign toolkit.*"]

def build_markdown (b : TrustReportBuilder) (now : String) : String :=
  String.intercalate "\n" (build_markdown_lines b now)

/-! ## Registry lemmas -/

theorem get_dictWrite_self (reg : RiskRegistry) (id : String) (r : Risk) :
    RiskRegistry.get_risk (dictWrite reg id r) id = some r := by
  induction reg with
  | nil => simp [dictWrite, RiskRegistry.get_risk]
  | cons p rest ih =>
    obtain ⟨k, r₀⟩ := p
    by_cases h : k = id
    · simp [dictWrite, h, RiskRegistry.get_risk]
    · simp [dictWrite, h, RiskRegistry.get_risk, ih]

theorem get_dictWrite_ne (reg : RiskRegistry) (id j : String) (r : Risk)
    (h : j ≠ id) :
    RiskRegistry.get_risk (dictWrite reg id r) j = RiskRegistry.get_risk reg j := by
  have hij : ¬ id = j := fun hc => h hc.symm
  induction reg with
  | nil => simp [dictWrite, RiskRegistry.get_risk, hij]
  | cons p rest ih =>
    obtain ⟨k, r₀⟩ := p
    by_cases hk : k = id
    · subst hk
      simp [dictWrite, RiskRegistry.get_risk, hij]
    · simp [dictWrite, hk, RiskRegistry.get_risk, ih]

/-- C1: adding a risk under an id already present always fails with the
duplicate-id error, and the registry — in particular the risk already
stored under that id, including its mitigation list — is unchanged. -/
theorem add_risk_duplicate_id_fails_and_preserves
    (reg : RiskRegistry) (id : String) (r₀ : Risk)
    (h : RiskRegistry.get_risk reg id = some r₀)
    (category : RiskCategory) (title description : String)
    (severity : Severity) (likelihood : Likelihood)
    (mitigations : Option (List String)) (owner : String)
    (status : RiskStatus) (metadata : Option (List (String × String))) :
    (RiskRegistry.add_risk reg id category title description severity
        likelihood mitigations owner status metadata).1 = reg
    ∧ (RiskRegistry.add_risk reg id category title description severity
        likelihood mitigations owner status metadata).2
        = .error ("Risk with ID '" ++ id ++ "' already exists")
    ∧ RiskRegistry.get_risk
        (RiskRegistry.add_risk reg id category title description severity
          likelihood mitigations owner status metadata).1 id = some r₀
    ∧ (RiskRegistry.get_risk
        (RiskRegistry.add_risk reg id category title description severity
          likelihood mitigations owner status metadata).1 id).map
        Risk.mitigations = some r₀.mitigations := by
  have hs : (RiskRegistry.get_risk reg id).isSome = true := by
    rw [h]; rfl
  refine ⟨?_, ?_, ?_, ?_⟩ <;> simp [RiskRegistry.add_risk, hs, h]

/-- Witness for C1 at a concrete registry. -/
def wRisk : Risk :=
  { id := "r1", category := .PRIVACY, title := "t", description := "d"
    severity := .HIGH, likelihood := .MEDIUM, mitigations := ["m1", "m2"]
    owner := "alice", status := .IDENTIFIED, metadata := [("k", "v")] }

theorem add_risk_duplicate_id_fails_and_preserves_w :
    (RiskRegistry.add_risk [("r1", wRisk)] "r1" .BIAS "t2" "d2" .LOW
        .LOW none "" .IDENTIFIED none).1 = [("r1", wRisk)]
    ∧ (RiskRegistry.add_risk [("r1", wRisk)] "r1" .BIAS "t2" "d2" .LOW
        .LOW none "" .IDENTIFIED none).2
        = .error "Risk with ID 'r1' already exists"
    ∧ RiskRegistry.get_risk
        (RiskRegistry.add_risk [("r1", wRisk)] "r1" .BIAS "t2" "d2" .LOW
          .LOW none "" .IDENTIFIED none).1 "r1" = some wRisk
    ∧ (RiskRegistry.get_risk
        (RiskRegistry.add_risk [("r1", wRisk)] "r1" .BIAS "t2" "d2" .LOW
          .LOW none "" .IDENTIFIED none).1 "r1").map
        Risk.mitigations = some ["m1", "m2"] := by
  have h := add_risk_duplicate_id_fails_and_preserves [("r1", wRisk)] "r1"
    wRisk (by decide) .BIAS "t2" "d2" .LOW .LOW none "" .IDENTIFIED none
  exact ⟨h.1, h.2.1, h.2.2.1, by rw [h.2.2.1]; rfl⟩

/-! ## Field-frame predicate for `update_risk` -/

/-- `fieldsUntouched ks r r'` says every data field of `Risk` whose name
is not among the keyword names `ks` has the same value in `r'` as in
`r` (and the id always does: no keyword can be named `id`). -/
def fieldsUntouched (ks : List String) (r r' : Risk) : Prop :=
  r'.id = r.id
  ∧ ("category" ∉ ks → r'.category = r.category)
  ∧ ("title" ∉ ks → r'.title = r.title)
  ∧ ("description" ∉ ks → r'.description = r.description)
  ∧ ("severity" ∉ ks → r'.severity = r.severity)
  ∧ ("likelihood" ∉ ks → r'.likelihood = r.likelihood)
  ∧ ("mitigations" ∉ ks → r'.mitigations = r.mitigations)
  ∧ ("owner" ∉ ks → r'.owner = r.owner)
  ∧ ("status" ∉ ks → r'.status = r.status)
  ∧ ("metadata" ∉ ks → r'.metadata = r.metadata)

theorem fieldsUntouched_refl (ks : List String) (r : Risk) :
    fieldsUntouched ks r r :=
  ⟨rfl, fun _ => rfl, fun _ => rfl, fun _ => rfl, fun _ => rfl, fun _ => rfl,
   fun _ => rfl, fun _ => rfl, fun _ => rfl, fun _ => rfl⟩

theorem fieldsUntouched_trans (ks ks' : List String) (r r₁ r₂ : Risk)
    (h₁ : fieldsUntouched ks r r₁) (h₂ : fieldsUntouched ks' r₁ r₂) :
    fieldsUntouched (ks ++ ks') r r₂ := by
  obtain ⟨i1, c1, t1, d1, s1, l1, m1, o1, st1, md1⟩ := h₁
  obtain ⟨i2, c2, t2, d2, s2, l2, m2, o2, st2, md2⟩ := h₂
  refine ⟨i2.trans i1, fun hm => ?_, fun hm => ?_, fun hm => ?_, fun hm => ?_,
      fun hm => ?_, fun hm => ?_, fun hm => ?_, fun hm => ?_, fun hm => ?_⟩ <;>
    simp only [List.mem_append, not_or] at hm
  · exact (c2 hm.2).trans (c1 hm.1)
  · exact (t2 hm.2).trans (t1 hm.1)
  · exact (d2 hm.2).trans (d1 hm.1)
  · exact (s2 hm.2).trans (s1 hm.1)
  · exact (l2 hm.2).trans (l1 hm.1)
  · exact (m2 hm.2).trans (m1 hm.1)
  · exact (o2 hm.2).trans (o1 hm.1)
  · exact (st2 hm.2).trans (st1 hm.1)
  · exact (md2 hm.2).trans (md1 hm.1)

theorem applyKwarg_untouched (r r₁ : Risk) (k : Kwarg)
    (h : applyKwarg r k = .ok r₁) : fieldsUntouched [k.key] r r₁ := by
  cases k with
  | category v =>
    simp [applyKwarg] at h; subst h; simp [Kwarg.key, fieldsUntouched]
  | categoryStr s =>
    revert h
    cases hc : RiskCategory.ofString s with
    | none => simp [applyKwarg, hc]
    | some v =>
      intro h; simp [applyKwarg, hc] at h; subst h
      simp [Kwarg.key, fieldsUntouched]
  | title s =>
    simp [applyKwarg] at h; subst h; simp [Kwarg.key, fieldsUntouched]
  | description s =>
    simp [applyKwarg] at h; subst h; simp [Kwarg.key, fieldsUntouched]
  | severity v =>
    simp [applyKwarg] at h; subst h; simp [Kwarg.key, fieldsUntouched]
  | severityStr s =>
    revert h
    cases hc : Severity.ofString s with
    | none => simp [applyKwarg, hc]
    | some v =>
      intro h; simp [applyKwarg, hc] at h; subst h
      simp [Kwarg.key, fieldsUntouched]
  | likelihood v =>
    simp [applyKwarg] at h; subst h; simp [Kwarg.key, fieldsUntouched]
  | likelihoodStr s =>
    revert h
    cases hc : Likelihood.ofString s with
    | none => simp [applyKwarg, hc]
    | some v =>
      intro h; simp [applyKwarg, hc] at h; subst h
      simp [Kwarg.key, fieldsUntouched]
  | mitigations l =>
    simp [applyKwarg] at h; subst h; simp [Kwarg.key, fieldsUntouched]
  | owner s =>
    simp [applyKwarg] at h; subst h; simp [Kwarg.key, fieldsUntouched]
  | status v =>
    simp [applyKwarg] at h; subst h; simp [Kwarg.key, fieldsUntouched]
  | statusStr s =>
    revert h
    cases hc : RiskStatus.ofString s with
    | none => simp [applyKwarg, hc]
    | some v =>
      intro h; simp [applyKwarg, hc] at h; subst h
      simp [Kwarg.key, fieldsUntouched]
  | metadata m =>
    simp [applyKwarg] at h; subst h; simp [Kwarg.key, fieldsUntouched]
  | unknown n =>
    simp [applyKwarg] at h; subst h; exact fieldsUntouched_refl _ _

theorem applyKwargs_untouched (ks : List Kwarg) : ∀ (r r' : Risk),
    applyKwargs r ks = (r', none) →
    fieldsUntouched (ks.map Kwarg.key) r r' := by
  induction ks with
  | nil =>
    intro r r' h
    simp [applyKwargs] at h
    subst h
    exact fieldsUntouched_refl _ _
  | cons k ks ih =>
    intro r r' h
    cases hk : applyKwarg r k with
    | ok r₁ =>
      simp only [applyKwargs, hk] at h
      exact fieldsUntouched_trans [k.key] (ks.map Kwarg.key) r r₁ r'
        (applyKwarg_untouched r r₁ k hk) (ih r₁ r' h)
    | error e =>
      simp only [applyKwargs, hk] at h
      simp at h

/-- C2: updating an absent id fails with the not-found error leaving
the registry as it was; updating a present id with recognized fields
(all applying cleanly) stores exactly the sequentially updated risk
under that id, leaves every field not named among the keywords — and
every other risk — unchanged; a keyword whose name is not an attribute
of `Risk` is ignored rather than an error. -/
theorem update_risk_spec (reg : RiskRegistry) (id : String)
    (kwargs : List Kwarg) :
    (RiskRegistry.get_risk reg id = none →
      RiskRegistry.update_risk reg id kwargs
        = (reg, .error ("Risk with ID '" ++ id ++ "' not found")))
    ∧ (∀ r r', RiskRegistry.get_risk reg id = some r →
        applyKwargs r kwargs = (r', none) →
        RiskRegistry.update_risk reg id kwargs = (dictWrite reg id r', .ok r')
        ∧ RiskRegistry.get_risk (RiskRegistry.update_risk reg id kwargs).1 id
            = some r'
        ∧ (∀ j, j ≠ id →
            RiskRegistry.get_risk (RiskRegistry.update_risk reg id kwargs).1 j
              = RiskRegistry.get_risk reg j)
        ∧ fieldsUntouched (kwargs.map Kwarg.key) r r')
    ∧ (∀ n, n ∉ riskAttrNames → ∀ r, applyKwarg r (.unknown n) = .ok r) := by
  refine ⟨?_, ?_, ?_⟩
  · intro h
    simp [RiskRegistry.update_risk, h]
  · intro r r' hr hk
    have he : RiskRegistry.update_risk reg id kwargs
        = (dictWrite reg id r', .ok r') := by
      simp [RiskRegistry.update_risk, hr, hk]
    refine ⟨he, ?_, ?_, applyKwargs_untouched kwargs r r' hk⟩
    · rw [he]; exact get_dictWrite_self reg id r'
    · intro j hj; rw [he]; exact get_dictWrite_ne reg id j r' hj
  · intro n _ r; rfl

def wRisk2 : Risk :=
  { id := "r2", category := .SECURITY, title := "t2", description := "d2"
    severity := .LOW, likelihood := .VERY_LOW, mitigations := []
    owner := "", status := .CLOSED, metadata := [] }

/-- Witness for C2 at a concrete registry and kwargs list. -/
theorem update_risk_spec_w :
    RiskRegistry.update_risk [("r1", wRisk), ("r2", wRisk2)] "r1"
        [.title "T2", .statusStr "mitigating"]
      = (dictWrite [("r1", wRisk), ("r2", wRisk2)] "r1"
          { wRisk with title := "T2", status := .MITIGATING },
         .ok { wRisk with title := "T2", status := .MITIGATING })
    ∧ RiskRegistry.get_risk
        (RiskRegistry.update_risk [("r1", wRisk), ("r2", wRisk2)] "r1"
          [.title "T2", .statusStr "mitigating"]).1 "r1"
        = some { wRisk with title := "T2", status := .MITIGATING }
    ∧ RiskRegistry.get_risk
        (RiskRegistry.update_risk [("r1", wRisk), ("r2", wRisk2)] "r1"
          [.title "T2", .statusStr "mitigating"]).1 "r2"
        = RiskRegistry.get_risk [("r1", wRisk), ("r2", wRisk2)] "r2"
    ∧ ({ wRisk with title := "T2", status := .MITIGATING } : Risk).category
        = wRisk.category
    ∧ ({ wRisk with title := "T2", status := .MITIGATING } : Risk).mitigations
        = wRisk.mitigations := by
  have h := (update_risk_spec [("r1", wRisk), ("r2", wRisk2)] "r1"
    [.title "T2", .statusStr "mitigating"]).2.1 wRisk
    { wRisk with title := "T2", status := .MITIGATING } rfl rfl
  exact ⟨h.1, h.2.1, h.2.2.1 "r2" (by decide),
    h.2.2.2.2.1 (by decide), h.2.2.2.2.2.2.2.2.2.1 (by decide)⟩

theorem applyKwargs_error_after (ks₁ : List Kwarg) :
    ∀ (r r₁ : Risk) (b : Kwarg) (ks₂ : List Kwarg) (e : String),
    applyKwargs r ks₁ = (r₁, none) → applyKwarg r₁ b = .error e →
    applyKwargs r (ks₁ ++ b :: ks₂) = (r₁, some e) := by
  induction ks₁ with
  | nil =>
    intro r r₁ b ks₂ e h hb
    simp [applyKwargs] at h
    subst h
    simp [applyKwargs, hb]
  | cons k ks ih =>
    intro r r₁ b ks₂ e h hb
    cases hk : applyKwarg r k with
    | ok r₂ =>
      simp only [List.cons_append, applyKwargs, hk] at h ⊢
      exact ih r₂ r₁ b ks₂ e h hb
    | error e' =>
      simp only [applyKwargs, hk] at h
      simp at h

/-- C10: `update_risk` applies keyword fields one at a time in call
order; when a keyword carries an invalid enum string the error is
raised at that point, every recognized field supplied earlier has
already been applied, and the stored risk keeps those earlier updates —
no rollback. -/
theorem update_risk_error_keeps_earlier_updates
    (reg : RiskRegistry) (id : String) (r r₁ : Risk) (ks₁ ks₂ : List Kwarg)
    (b : Kwarg) (e : String)
    (hget : RiskRegistry.get_risk reg id = some r)
    (h₁ : applyKwargs r ks₁ = (r₁, none))
    (hb : applyKwarg r₁ b = .error e) :
    RiskRegistry.update_risk reg id (ks₁ ++ b :: ks₂)
      = (dictWrite reg id r₁, .error e)
    ∧ RiskRegistry.get_risk
        (RiskRegistry.update_risk reg id (ks₁ ++ b :: ks₂)).1 id = some r₁ := by
  have happ := applyKwargs_error_after ks₁ r r₁ b ks₂ e h₁ hb
  have he : RiskRegistry.update_risk reg id (ks₁ ++ b :: ks₂)
      = (dictWrite reg id r₁, .error e) := by
    simp [RiskRegistry.update_risk, hget, happ]
  exact ⟨he, by rw [he]; exact get_dictWrite_self reg id r₁⟩

/-- Witness for C10: the invalid severity string raises after the title
has already been applied, and the stored risk keeps the new title. -/
theorem update_risk_error_keeps_earlier_updates_w :
    RiskRegistry.update_risk [("r1", wRisk)] "r1"
        [.title "New", .severityStr "bogus"]
      = (dictWrite [("r1", wRisk)] "r1" { wRisk with title := "New" },
         .error "'bogus' is not a valid Severity")
    ∧ RiskRegistry.get_risk
        (RiskRegistry.update_risk [("r1", wRisk)] "r1"
          [.title "New", .severityStr "bogus"]).1 "r1"
        = some { wRisk with title := "New" }
    ∧ ({ wRisk with title := "New" } : Risk) ≠ wRisk := by
  have h := update_risk_error_keeps_earlier_updates [("r1", wRisk)] "r1"
    wRisk { wRisk with title := "New" } [.title "New"] []
    (.severityStr "bogus") "'bogus' is not a valid Severity" rfl rfl rfl
  exact ⟨h.1, h.2, by decide⟩

/-! ## Serialization claims -/

/-- C3: `Risk.from_dict` succeeds exactly when the four enumeration
fields hold strings inside their closed vocabularies (status defaulting
to `identified` when absent); on success the enum fields of the result
are the corresponding tagged variants, and on failure the error is one
of the invalid-enum-value messages. -/
theorem from_dict_enum_spec (d : RiskData) :
    ((∃ r, Risk.from_dict d = .ok r) ↔
      ((RiskCategory.ofString d.category).isSome
        ∧ (Severity.ofString d.severity).isSome
        ∧ (Likelihood.ofString d.likelihood).isSome
        ∧ (RiskStatus.ofString (d.status.getD "identified")).isSome))
    ∧ (∀ r, Risk.from_dict d = .ok r →
        RiskCategory.ofString d.category = some r.category
        ∧ Severity.ofString d.severity = some r.severity
        ∧ Likelihood.ofString d.likelihood = some r.likelihood
        ∧ RiskStatus.ofString (d.status.getD "identified") = some r.status)
    ∧ (∀ e, Risk.from_dict d = .error e →
        e = invalidEnumMsg "RiskCategory" d.category
        ∨ e = invalidEnumMsg "Severity" d.severity
        ∨ e = invalidEnumMsg "Likelihood" d.likelihood
        ∨ e = invalidEnumMsg "RiskStatus" (d.status.getD "identified")) := by
  cases hc : RiskCategory.ofString d.category <;>
    cases hs : Severity.ofString d.severity <;>
      cases hl : Likelihood.ofString d.likelihood <;>
        cases ht : RiskStatus.ofString (d.status.getD "identified") <;>
          simp [Risk.from_dict, hc, hs, hl, ht]

def wData : RiskData :=
  { id := "r9", category := "privacy", title := "t", description := "d"
    severity := "high", likelihood := "medium", mitigations := some ["m"]
    owner := some "o", status := some "analyzing", metadata := some [("a", "b")] }

def wDataRisk : Risk :=
  { id := "r9", category := .PRIVACY, title := "t", description := "d"
    severity := .HIGH, likelihood := .MEDIUM, mitigations := ["m"]
    owner := "o", status := .ANALYZING, metadata := [("a", "b")] }

/-- Witness for C3: a record with valid enum strings deserializes to
the matching tagged variants. -/
theorem from_dict_enum_spec_w :
    RiskCategory.ofString "privacy" = some RiskCategory.PRIVACY
    ∧ Severity.ofString "high" = some Severity.HIGH
    ∧ Likelihood.ofString "medium" = some Likelihood.MEDIUM
    ∧ RiskStatus.ofString "analyzing" = some RiskStatus.ANALYZING :=
  (from_dict_enum_spec wData).2.1 wDataRisk rfl

theorem ofString_category_value (c : RiskCategory) :
    RiskCategory.ofString c.value = some c := by cases c <;> rfl

theorem ofString_severity_value (s : Severity) :
    Severity.ofString s.value = some s := by cases s <;> rfl

theorem ofString_likelihood_value (l : Likelihood) :
    Likelihood.ofString l.value = some l := by cases l <;> rfl

theorem ofString_status_value (s : RiskStatus) :
    RiskStatus.ofString s.value = some s := by cases s <;> rfl

/-- Serialize/deserialize one risk: the identity. -/
theorem from_dict_to_dict (r : Risk) : Risk.from_dict r.to_dict = .ok r := by
  simp [Risk.to_dict, Risk.from_dict, ofString_category_value,
    ofString_severity_value, ofString_likelihood_value, ofString_status_value]

theorem dictWrite_absent (reg : RiskRegistry) (id : String) (r : Risk)
    (h : ∀ p ∈ reg, p.1 ≠ id) : dictWrite reg id r = reg ++ [(id, r)] := by
  induction reg with
  | nil => rfl
  | cons p rest ih =>
    obtain ⟨k, r₀⟩ := p
    have hk : k ≠ id := h (k, r₀) (List.mem_cons_self _ _)
    simp only [dictWrite, hk, if_false, List.cons_append, List.cons.injEq,
      true_and]
    exact ih fun q hq => h q (List.mem_cons_of_mem _ hq)

theorem load_export_aux (l : List (String × Risk)) : ∀ acc : RiskRegistry,
    (∀ p ∈ l, p.1 = p.2.id) →
    (((acc ++ l).map Prod.fst).Nodup) →
    RiskRegistry.load_risks acc (l.map fun p => p.2.to_dict) = (acc ++ l, none) := by
  induction l with
  | nil =>
    intro acc _ _
    simp [RiskRegistry.load_risks]
  | cons p rest ih =>
    intro acc hids hnd
    obtain ⟨k, r⟩ := p
    have hk : k = r.id := hids (k, r) (List.mem_cons_self _ _)
    subst hk
    have habs : ∀ q ∈ acc, q.1 ≠ r.id := by
      intro q hq hEq
      rw [List.map_append, List.nodup_append] at hnd
      exact hnd.2.2 (List.mem_map.mpr ⟨q, hq, rfl⟩) (by simp [hEq])
    simp only [List.map_cons, RiskRegistry.load_risks, from_dict_to_dict]
    rw [dictWrite_absent acc r.id r habs]
    have hassoc : (acc ++ [(r.id, r)]) ++ rest = acc ++ (r.id, r) :: rest := by
      simp
    rw [ih (acc ++ [(r.id, r)])
      (fun q hq => hids q (List.mem_cons_of_mem _ hq))
      (by rw [hassoc]; exact hnd), hassoc]

/-- C4: exporting every risk and loading the result into a fresh empty
registry reproduces the registry exactly — every risk, every field,
in insertion order. -/
theorem export_then_load_round_trip (reg : RiskRegistry)
    (hwf : RiskRegistry.WF reg) :
    RiskRegistry.load_risks [] (RiskRegistry.export_risks_to_dict reg)
      = (reg, none) := by
  have h := load_export_aux reg [] hwf.2 (by simpa using hwf.1)
  simpa [RiskRegistry.export_risks_to_dict] using h

/-- Witness for C4 on a two-risk registry. -/
theorem export_then_load_round_trip_w :
    RiskRegistry.load_risks []
        (RiskRegistry.export_risks_to_dict [("r1", wRisk), ("r2", wRisk2)])
      = ([("r1", wRisk), ("r2", wRisk2)], none) :=
  export_then_load_round_trip [("r1", wRisk), ("r2", wRisk2)]
    ⟨by decide, by decide⟩

theorem load_no_error_aux (docs : List RiskData) : ∀ reg : RiskRegistry,
    (∀ d ∈ docs, ∃ r, Risk.from_dict d = .ok r) →
    ∃ reg', RiskRegistry.load_risks reg docs = (reg', none) := by
  induction docs with
  | nil => intro reg _; exact ⟨reg, rfl⟩
  | cons d ds ih =>
    intro reg h
    obtain ⟨r, hr⟩ := h d (List.mem_cons_self _ _)
    simp only [RiskRegistry.load_risks, hr]
    exact ih (dictWrite reg r.id r) fun d' hd' => h d' (List.mem_cons_of_mem _ hd')

/-- C5: loading a well-formed risks document never raises a
duplicate-id error — every record is merged into the existing map by
id, and a record whose id is already present silently overwrites the
stored risk (last write wins), unlike `add_risk`. -/
theorem load_merges_last_write_wins (reg : RiskRegistry) (docs : List RiskData)
    (h : ∀ d ∈ docs, ∃ r, Risk.from_dict d = .ok r) :
    (∃ reg', RiskRegistry.load_risks reg docs = (reg', none))
    ∧ (∀ (d : RiskData) (r : Risk), Risk.from_dict d = .ok r →
        ∀ reg₀ : RiskRegistry,
          RiskRegistry.load_risks reg₀ [d] = (dictWrite reg₀ r.id r, none)
          ∧ RiskRegistry.get_risk (dictWrite reg₀ r.id r) r.id = some r) := by
  refine ⟨load_no_error_aux docs reg h, ?_⟩
  intro d r hr reg₀
  exact ⟨by simp [RiskRegistry.load_risks, hr], get_dictWrite_self reg₀ r.id r⟩

def wRisk3 : Risk :=
  { wRisk with title := "overwritten", severity := .CRITICAL }

/-- Witness for C5: loading a record whose id collides with a stored
risk succeeds and overwrites it in place. -/
theorem load_merges_last_write_wins_w :
    RiskRegistry.load_risks [("r1", wRisk)] [Risk.to_dict wRisk3]
      = ([("r1", wRisk3)], none)
    ∧ RiskRegistry.get_risk (dictWrite [("r1", wRisk)] "r1" wRisk3) "r1"
      = some wRisk3 := by
  have h := (load_merges_last_write_wins [("r1", wRisk)] [Risk.to_dict wRisk3]
    (by
      intro d hd
      rw [List.mem_singleton] at hd
      subst hd
      exact ⟨wRisk3, from_dict_to_dict wRisk3⟩)).2
    (Risk.to_dict wRisk3) wRisk3 (from_dict_to_dict wRisk3) [("r1", wRisk)]
  exact ⟨h.1, h.2⟩

/-! ## Policy checker claims -/

/-- C6: checking the empty policy document never crashes (the checker
is total) and its error-severity issues are exactly one per required
section, in order: scope, responsibilities, data_handling,
incident_response, monitoring, escalation — the per-section field
checks contribute none. -/
theorem check_empty_policy_errors :
    ((PolicyChecker.check_policy PolicyChecker.new []).2.filter
        fun i => i.severity = "error")
      = [{ severity := "error", «section» := "scope",
           message := "Required section 'scope' is missing or empty" },
         { severity := "error", «section» := "responsibilities",
           message := "Required section 'responsibilities' is missing or empty" },
         { severity := "error", «section» := "data_handling",
           message := "Required section 'data_handling' is missing or empty" },
         { severity := "error", «section» := "incident_response",
           message := "Required section 'incident_response' is missing or empty" },
         { severity := "error", «section» := "monitoring",
           message := "Required section 'monitoring' is missing or empty" },
         { severity := "error", «section» := "escalation",
           message := "Required section 'escalation' is missing or empty" }] := by
  decide

/-- C7: `check_policy` is a pure function of the input document — the
returned issue list and the resulting checker state are identical no
matter what state the checker carried from earlier runs, and coincide
with a run on a freshly constructed checker. -/
theorem check_policy_ignores_prior_state (c₁ c₂ : PolicyChecker) (p : Policy) :
    PolicyChecker.check_policy c₁ p = PolicyChecker.check_policy c₂ p
    ∧ (PolicyChecker.check_policy c₁ p).2
        = (PolicyChecker.check_policy PolicyChecker.new p).2 :=
  ⟨rfl, rfl⟩

/-! ## Uncertainty-tag claims -/

theorem isPrefixOf_append_self (l r : List Char) :
    l.isPrefixOf (l ++ r) = true := by
  induction l with
  | nil => simp [List.isPrefixOf]
  | cons c cs ih => simp [List.isPrefixOf, ih]

theorem removeAllAux_skip (p : List Char) (xs : List Char) :
    ∀ rest : List Char,
    removeAllAux p (xs ++ rest) xs.length = removeAllAux p rest 0 := by
  induction xs with
  | nil => intro rest; rfl
  | cons x xs ih =>
    intro rest
    simp only [List.cons_append, List.length_cons, removeAllAux]
    exact ih rest

theorem removeAllAux_head_match (p rest : List Char) (hp : p ≠ []) :
    removeAllAux p (p ++ rest) 0 = removeAllAux p rest 0 := by
  obtain ⟨c, cs, rfl⟩ := List.exists_cons_of_ne_nil hp
  have hpre := isPrefixOf_append_self (c :: cs) rest
  rw [List.cons_append] at hpre
  rw [List.cons_append]
  simp only [removeAllAux, hpre, if_true, List.length_cons, Nat.add_sub_cancel]
  exact removeAllAux_skip (c :: cs) cs rest

theorem removeAllAux_head_miss (c₀ : Char) (ps : List Char) (c : Char)
    (hne : c ≠ c₀) (cs : List Char) :
    removeAllAux (c₀ :: ps) (c :: cs) 0 = c :: removeAllAux (c₀ :: ps) cs 0 := by
  have h : ¬ (c₀ = c) := fun h => hne h.symm
  simp [removeAllAux, List.isPrefixOf, h]

theorem foldl_removeTags_space (tags : List String) :
    (∀ t ∈ tags, ∃ ps, t.data = '[' :: ps) → ∀ X : List Char,
    tags.foldl (fun acc tag => removeAllAux tag.data acc 0) (' ' :: X)
      = ' ' :: tags.foldl (fun acc tag => removeAllAux tag.data acc 0) X := by
  induction tags with
  | nil => intro _ X; rfl
  | cons t ts ih =>
    intro h X
    obtain ⟨ps, hps⟩ := h t (List.mem_cons_self _ _)
    simp only [List.foldl_cons]
    rw [hps, removeAllAux_head_miss '[' ps ' ' (by decide) X, ← hps]
    exact ih (fun u hu => h u (List.mem_cons_of_mem _ hu)) _

theorem removeAllTags_tag_fact (t : String) :
    removeAllTags (tag_fact t).data = ' ' :: removeAllTags t.data := by
  have hdata : (tag_fact t).data = "[FACT]".data ++ (' ' :: t.data) := by
    simp [tag_fact, TAG_FACT, String.data_append]
  rw [removeAllTags, hdata]
  show List.foldl _ _ (TAG_FACT :: [TAG_ESTIMATE, TAG_UNKNOWN, TAG_ASSUMPTION, TAG_SPECULATION]) = _
  rw [List.foldl_cons]
  have h1 : removeAllAux TAG_FACT.data ("[FACT]".data ++ (' ' :: t.data)) 0
      = ' ' :: removeAllAux TAG_FACT.data t.data 0 := by
    rw [show TAG_FACT.data = "[FACT]".data from rfl,
      removeAllAux_head_match "[FACT]".data (' ' :: t.data) (by decide)]
    exact removeAllAux_head_miss '[' "FACT]".data ' ' (by decide) t.data
  rw [h1]
  rw [foldl_removeTags_space [TAG_ESTIMATE, TAG_UNKNOWN, TAG_ASSUMPTION, TAG_SPECULATION]
    (by
      intro u hu
      simp [TAG_ESTIMATE, TAG_UNKNOWN, TAG_ASSUMPTION, TAG_SPECULATION] at hu
      rcases hu with h | h | h | h <;> subst h <;> exact ⟨_, rfl⟩)
    (removeAllAux TAG_FACT.data t.data 0)]
  rfl

theorem dropWhile_collapseWs_flag (R : List Char) :
    (collapseWsAux true R).dropWhile isPySpace
      = (collapseWsAux false R).dropWhile isPySpace := by
  cases R with
  | nil => rfl
  | cons c cs =>
    by_cases hw : isPySpace c
    · have hsp : isPySpace ' ' = true := rfl
      simp [collapseWsAux, hw, List.dropWhile_cons, hsp]
    · simp [collapseWsAux, hw, List.dropWhile_cons]

/-- C8 (amended): stripping the tags off a fact-tagged text yields the
strip-normal form of the text itself: `strip_tags ∘ tag_fact =
strip_tags`.  (The composite is the identity only on texts already in
that normal form — see the counterexample for internal whitespace.) -/
theorem strip_tags_tag_fact (t : String) :
    strip_tags (tag_fact t) = strip_tags t := by
  unfold strip_tags
  rw [removeAllTags_tag_fact]
  have hcol : collapseWsAux false (' ' :: removeAllTags t.data)
      = ' ' :: collapseWsAux true (removeAllTags t.data) := by
    simp [collapseWsAux, isPySpace]
  rw [hcol]
  unfold pyStrip
  rw [show (' ' :: collapseWsAux true (removeAllTags t.data)).dropWhile isPySpace
      = (collapseWsAux true (removeAllTags t.data)).dropWhile isPySpace from by
    simp [List.dropWhile, isPySpace]]
  rw [dropWhile_collapseWs_flag]

/-- Formalization of the claim's phrase "text itself, modulo
surrounding whitespace normalization": the text with leading and
trailing whitespace stripped and nothing else changed. -/
def surroundingWsNormalized (s : String) : String :=
  String.mk (pyStrip s.data)

/-- Counterexample to C8 as stated: on `"a  b"` (no surrounding
whitespace at all, but an internal double space) the round trip
returns `"a b"`, not the text itself modulo surrounding whitespace
normalization — internal whitespace runs are collapsed too. -/
theorem strip_tags_tag_fact_cex :
    strip_tags (tag_fact "a  b") ≠ surroundingWsNormalized "a  b"
    ∧ strip_tags (tag_fact "a  b") = "a b"
    ∧ surroundingWsNormalized "a  b" = "a  b" := by
  refine ⟨?_, ?_, ?_⟩ <;> decide

/-! ## Report builder claims: which section headers appear -/

theorem take2_clash (s t u : String) (c₁ c₂ : Char) (cs : List Char)
    (hs : s.data = c₁ :: c₂ :: cs) (hu : u.data.take 2 = ['#', '#'])
    (hne : c₁ ≠ '#' ∨ c₂ ≠ '#') (he : u = s ++ t) : False := by
  subst he
  rw [String.data_append, hs] at hu
  simp [List.take] at hu
  rcases hne with h | h
  · exact h hu.1
  · exact h hu.2

theorem execSummary_not_mem (b : TrustReportBuilder) (u : String)
    (hu : u.data.take 2 = ['#', '#']) : u ∉ buildExecutiveSummary b := by
  intro h
  unfold buildExecutiveSummary at h
  rw [List.mem_append] at h
  rcases h with h | h
  · cases hreg : b.risk_registry with
    | none => rw [hreg] at h; exact absurd h (List.not_mem_nil u)
    | some reg =>
      rw [hreg] at h
      simp only [List.mem_cons, List.not_mem_nil, or_false] at h
      rcases h with he | he | he | he
      · exact take2_clash "**Total Risks Identified**: " _ u '*' '*' _ rfl hu
          (Or.inl (by decide)) he
      · exact take2_clash "- Critical: " _ u '-' ' ' _ rfl hu
          (Or.inl (by decide)) he
      · exact take2_clash "- High: " _ u '-' ' ' _ rfl hu
          (Or.inl (by decide)) he
      · rw [he] at hu; exact absurd hu (by decide)
  · cases hch : b.policy_checker with
    | none => rw [hch] at h; exact absurd h (List.not_mem_nil u)
    | some c =>
      rw [hch] at h
      cases hiss : c.issues.isEmpty with
      | true => simp [hiss] at h
      | false =>
        simp only [hiss, Bool.false_eq_true, if_false] at h
        simp only [List.mem_cons, List.not_mem_nil, or_false] at h
        rcases h with he | he | he | he
        · exact take2_clash "**Policy Compliance**: " _ u '*' '*' _ rfl hu
            (Or.inl (by decide)) he
        · exact take2_clash "- Errors: " _ u '-' ' ' _ rfl hu
            (Or.inl (by decide)) he
        · exact take2_clash "- Warnings: " _ u '-' ' ' _ rfl hu
            (Or.inl (by decide)) he
        · rw [he] at hu; exact absurd hu (by decide)

theorem highPriorityTable_not_mem (reg : RiskRegistry) (u : String)
    (hu : u.data.take 2 = ['#', '#'])
    (h2 : u ≠ "### High Priority Risks") : u ∉ highPriorityTable reg := by
  intro h
  simp only [highPriorityTable] at h
  split at h
  · exact absurd h (List.not_mem_nil u)
  · simp only [List.mem_append, List.mem_cons, List.not_mem_nil, or_false,
      List.mem_map, or_assoc] at h
    rcases h with he | he | he | he | ⟨r, hr, he⟩ | he
    · exact h2 he
    · rw [he] at hu; exact absurd hu (by decide)
    · rw [he] at hu; exact absurd hu (by decide)
    · rw [he] at hu; exact absurd hu (by decide)
    · exact take2_clash "| " _ u '|' ' ' _ rfl hu (Or.inl (by decide)) he.symm
    · rw [he] at hu; exact absurd hu (by decide)

theorem riskSection_not_mem (reg : RiskRegistry) (u : String)
    (hu : u.data.take 2 = ['#', '#'])
    (h1 : u ≠ "### Risk Summary") (h2 : u ≠ "### High Priority Risks") :
    u ∉ buildRiskSection reg := by
  intro h
  simp only [buildRiskSection, List.mem_append, List.mem_cons,
    List.not_mem_nil, or_false, List.mem_map, or_assoc] at h
  rcases h with he | he | he | he | he | ⟨p, hp, he⟩ | he | he
    | ⟨p, hp, he⟩ | he | h
  · exact h1 he
  · rw [he] at hu; exact absurd hu (by decide)
  · exact take2_clash "Total Risks: " _ u 'T' 'o' _ rfl hu
      (Or.inl (by decide)) he
  · rw [he] at hu; exact absurd hu (by decide)
  · rw [he] at hu; exact absurd hu (by decide)
  · exact take2_clash "- " _ u '-' ' ' _ rfl hu (Or.inl (by decide)) he.symm
  · rw [he] at hu; exact absurd hu (by decide)
  · rw [he] at hu; exact absurd hu (by decide)
  · exact take2_clash "- " _ u '-' ' ' _ rfl hu (Or.inl (by decide)) he.symm
  · rw [he] at hu; exact absurd hu (by decide)
  · exact highPriorityTable_not_mem reg u hu h2 h

theorem policySection_not_mem (c : PolicyChecker) (u : String)
    (hu : u.data.take 2 = ['#', '#'])
    (hE : u ≠ "### Errors") (hW : u ≠ "### Warnings") :
    u ∉ buildPolicySection c := by
  intro h
  simp only [buildPolicySection] at h
  split at h
  · simp only [List.mem_cons, List.not_mem_nil, or_false] at h
    rw [h] at hu; exact absurd hu (by decide)
  · simp only [List.mem_append, List.mem_cons, List.not_mem_nil, or_false,
      List.mem_map, or_assoc] at h
    rcases h with he | he | h | h
    · exact take2_clash "**Status**: " _ u '*' '*' _ rfl hu
        (Or.inl (by decide)) he
    · rw [he] at hu; exact absurd hu (by decide)
    · split at h
      · exact absurd h (List.not_mem_nil u)
      · simp only [List.mem_append, List.mem_cons, List.not_mem_nil, or_false,
          List.mem_map, or_assoc] at h
        rcases h with he | he | ⟨i, hi, he⟩ | he
        · exact hE he
        · rw [he] at hu; exact absurd hu (by decide)
        · exact take2_clash "- **" _ u '-' ' ' _ rfl hu
            (Or.inl (by decide)) he.symm
        · rw [he] at hu; exact absurd hu (by decide)
    · split at h
      · exact absurd h (List.not_mem_nil u)
      · simp only [List.mem_append, List.mem_cons, List.not_mem_nil, or_false,
          List.mem_map, or_assoc] at h
        rcases h with he | he | ⟨i, hi, he⟩ | he
        · exact hW he
        · rw [he] at hu; exact absurd hu (by decide)
        · exact take2_clash "- **" _ u '-' ' ' _ rfl hu
            (Or.inl (by decide)) he.symm
        · rw [he] at hu; exact absurd hu (by decide)

theorem recommendations_not_mem (b : TrustReportBuilder) (u : String)
    (hu : u.data.take 2 = ['#', '#']) : u ∉ buildRecommendations b := by
  intro h
  simp only [buildRecommendations, List.mem_map] at h
  obtain ⟨r, _, he⟩ := h
  exact take2_clash "- " _ u '-' ' ' _ rfl hu (Or.inl (by decide)) he.symm

/-- Which `##`-level lines appear in the render: a line whose first two
characters are `##` and which is none of the fixed always-present or
risk-level headers is in the render exactly when it is the policy
compliance header with a checker holding issues, or the notes header
with notes present. -/
theorem mem_build_markdown_hash (b : TrustReportBuilder) (now u : String)
    (hu : u.data.take 2 = ['#', '#'])
    (hfx : u ∉ ["## Executive Summary", "## Risk Assessment",
      "## Recommendations", "### Risk Summary", "### High Priority Risks",
      "### Errors", "### Warnings"]) :
    u ∈ build_markdown_lines b now ↔
      (u = "## Policy Compliance"
        ∧ ∃ c, b.policy_checker = some c ∧ c.issues ≠ [])
      ∨ (u = "## Additional Notes" ∧ b.manual_notes ≠ []) := by
  have hfx1 : u ≠ "## Executive Summary" := fun he => hfx (by rw [he]; decide)
  have hfx2 : u ≠ "## Risk Assessment" := fun he => hfx (by rw [he]; decide)
  have hfx3 : u ≠ "## Recommendations" := fun he => hfx (by rw [he]; decide)
  have hfx4 : u ≠ "### Risk Summary" := fun he => hfx (by rw [he]; decide)
  have hfx5 : u ≠ "### High Priority Risks" := fun he => hfx (by rw [he]; decide)
  have hfx6 : u ≠ "### Errors" := fun he => hfx (by rw [he]; decide)
  have hfx7 : u ≠ "### Warnings" := fun he => hfx (by rw [he]; decide)
  constructor
  · intro h
    simp only [build_markdown_lines, List.mem_append, List.mem_cons,
      List.not_mem_nil, or_false, or_assoc] at h
    rcases h with he | he | he | he | he | he | he | he | h9 | he
      | h11 | h12 | h13 | he | he | h16 | he | he | he | he
    · exact absurd he.symm (fun hc => take2_clash "# Trust Report: " _ u '#' ' '
        _ rfl hu (Or.inr (by decide)) hc.symm)
    · exact absurd he (fun hc => take2_clash "**Version**: " _ u '*' '*'
        _ rfl hu (Or.inl (by decide)) hc)
    · exact absurd he (fun hc => take2_clash "**Generated**: " _ u '*' '*'
        _ rfl hu (Or.inl (by decide)) hc)
    · rw [he] at hu; exact absurd hu (by decide)
    · rw [he] at hu; exact absurd hu (by decide)
    · rw [he] at hu; exact absurd hu (by decide)
    · exact absurd he hfx1
    · rw [he] at hu; exact absurd hu (by decide)
    · exact absurd h9 (execSummary_not_mem b u hu)
    · rw [he] at hu; exact absurd hu (by decide)
    · cases hreg : b.risk_registry with
      | none => rw [hreg] at h11; exact absurd h11 (List.not_mem_nil u)
      | some reg =>
        rw [hreg] at h11
        simp only [List.mem_append, List.mem_cons, List.not_mem_nil, or_false,
          or_assoc] at h11
        rcases h11 with he | he | h | he
        · exact absurd he hfx2
        · rw [he] at hu; exact absurd hu (by decide)
        · exact absurd h (riskSection_not_mem reg u hu hfx4 hfx5)
        · rw [he] at hu; exact absurd hu (by decide)
    · cases hch : b.policy_checker with
      | none => rw [hch] at h12; exact absurd h12 (List.not_mem_nil u)
      | some c =>
        rw [hch] at h12
        cases hiss : c.issues.isEmpty with
        | true => simp [hiss] at h12
        | false =>
          simp only [hiss, Bool.false_eq_true, if_false] at h12
          simp only [List.mem_append, List.mem_cons, List.not_mem_nil,
            or_false, or_assoc] at h12
          rcases h12 with he | he | h | he
          · refine Or.inl ⟨he, c, rfl, fun hnil => ?_⟩
            rw [hnil] at hiss
            exact absurd hiss (by decide)
          · rw [he] at hu; exact absurd hu (by decide)
          · exact absurd h (policySection_not_mem c u hu hfx6 hfx7)
          · rw [he] at hu; exact absurd hu (by decide)
    · cases hnn : b.manual_notes.isEmpty with
      | true => simp [hnn] at h13
      | false =>
        simp only [hnn, Bool.false_eq_true, if_false] at h13
        simp only [List.mem_append, List.mem_cons, List.not_mem_nil, or_false,
          List.mem_map, or_assoc] at h13
        rcases h13 with he | he | ⟨n, hn, he⟩ | he
        · refine Or.inr ⟨he, fun hnil => ?_⟩
          rw [hnil] at hnn
          exact absurd hnn (by decide)
        · rw [he] at hu; exact absurd hu (by decide)
        · exact (take2_clash "- " _ u '-' ' ' _ rfl hu
            (Or.inl (by decide)) he.symm).elim
        · rw [he] at hu; exact absurd hu (by decide)
    · exact absurd he hfx3
    · rw [he] at hu; exact absurd hu (by decide)
    · exact absurd h16 (recommendations_not_mem b u hu)
    · rw [he] at hu; exact absurd hu (by decide)
    · rw [he] at hu; exact absurd hu (by decide)
    · rw [he] at hu; exact absurd hu (by decide)
    · rw [he] at hu; exact absurd hu (by decide)
  · rintro (⟨rfl, c, hch, hne⟩ | ⟨rfl, hne⟩)
    · have hiss : c.issues.isEmpty = false := by
        cases hcs : c.issues with
        | nil => exact absurd hcs hne
        | cons a l => rfl
      simp [build_markdown_lines, hch, hiss]
    · have hiss : b.manual_notes.isEmpty = false := by
        cases hcs : b.manual_notes with
        | nil => exact absurd hcs hne
        | cons a l => rfl
      simp [build_markdown_lines, hiss]

/-- C9: the Markdown render (the joined line list) contains the
"Policy Compliance" section header exactly when a checker is set and
its issue list is non-empty, and the "Additional Notes" header exactly
when at least one note was added; an absent data source yields no such
section at all. -/
theorem build_markdown_sections (b : TrustReportBuilder) (now : String) :
    ("## Policy Compliance" ∈ build_markdown_lines b now ↔
      ∃ c, b.policy_checker = some c ∧ c.issues ≠ [])
    ∧ ("## Additional Notes" ∈ build_markdown_lines b now ↔
      b.manual_notes ≠ [])
    ∧ build_markdown b now
      = String.intercalate "\n" (build_markdown_lines b now) := by
  have h₁ := mem_build_markdown_hash b now "## Policy Compliance"
    (by decide) (by decide)
  have h₂ := mem_build_markdown_hash b now "## Additional Notes"
    (by decide) (by decide)
  refine ⟨?_, ?_, rfl⟩
  · rw [h₁]
    constructor
    · rintro (⟨_, h⟩ | ⟨he, _⟩)
      · exact h
      · exact absurd he (by decide)
    · intro h; exact Or.inl ⟨rfl, h⟩
  · rw [h₂]
    constructor
    · rintro (⟨he, _⟩ | ⟨_, h⟩)
      · exact absurd he (by decide)
      · exact h
    · intro h; exact Or.inr ⟨rfl, h⟩
